import Mathlib

/-!
Verification development for the PoWFaucet CosmWasm claim-settlement subsystem.

Shallow embedding of the TypeScript sources:
  src/cw/CwWalletManager.ts
  src/cw/CwClaimManager.ts
  src/cw/CwClaimNotificationClient.ts
  src/cw/CwWalletRefill.ts

JavaScript objects used as string-keyed maps are embedded as association
lists with insert-or-replace semantics; JS BigInt is embedded as Int with a
decimal-string parser mirroring BigInt(string); JS truthiness of strings and
numbers is embedded explicitly.  External effects (chain RPC outcomes,
module-hook results, stored database sessions) are passed in as explicit
oracle arguments.
-/

namespace PoWFaucet

/-- JS truthiness of a string: the empty string is falsy, all others truthy. -/
def strTruthy (s : String) : Bool := s != ""

/-- Embedding of String.prototype.startsWith as a character-list prefix
test (computable by kernel reduction, unlike String.startsWith). -/
def strStartsWith (s pre : String) : Bool := pre.data.isPrefixOf s.data

/-- Decimal digits to Nat, as BigInt("123") would parse the digit run. -/
def parseDecNat (cs : List Char) : Nat :=
  cs.foldl (fun acc c => acc * 10 + (c.toNat - 48)) 0

/-- Embedding of the JS BigInt(string) conversion for canonical decimal
integer strings (optional leading minus followed by digits). -/
def parseDecInt (s : String) : Int :=
  match s.data with
  | '-' :: rest => - (parseDecNat rest : Int)
  | l => (parseDecNat l : Int)

/-- Lookup in a JS-object-as-map: first binding for the key, if any. -/
def assocFind {α : Type} (l : List (String × α)) (k : String) : Option α :=
  match l with
  | [] => none
  | (k2, v) :: rest => if k2 = k then some v else assocFind rest k

/-- Assignment obj[k] = v on a JS object: replace the existing binding in
place, otherwise append (JS preserves string-key insertion order). -/
def assocSet {α : Type} (l : List (String × α)) (k : String) (v : α) :
    List (String × α) :=
  match l with
  | [] => [(k, v)]
  | (k2, v2) :: rest =>
    if k2 = k then (k2, v) :: rest else (k2, v2) :: assocSet rest k v

/-- Deletion of obj[k] on a JS object. -/
def assocErase {α : Type} (l : List (String × α)) (k : String) :
    List (String × α) :=
  match l with
  | [] => []
  | (k2, v2) :: rest =>
    if k2 = k then rest else (k2, v2) :: assocErase rest k

/-- Same map operation for Nat-keyed objects (historyTxDict). -/
def assocSetNat {α : Type} (l : List (Nat × α)) (k : Nat) (v : α) :
    List (Nat × α) :=
  match l with
  | [] => [(k, v)]
  | (k2, v2) :: rest =>
    if k2 = k then (k2, v) :: rest else (k2, v2) :: assocSetNat rest k v

/-! ## Data model (src/cw/interfaces.ts) -/

/-- ClaimTxStatus enum. -/
inductive ClaimTxStatus
  | queue
  | processing
  | pending
  | confirmed
  | failed
deriving DecidableEq, Repr

/-- ClaimData record attached to a session. -/
structure ClaimData where
  claimIdx : Nat
  claimStatus : ClaimTxStatus
  claimTime : Nat
  txHash : Option String
  txHeight : Option Nat
  txFee : Option String
  txError : Option String
deriving DecidableEq, Repr

/-- ClaimInfo: a live claim of a session. -/
structure ClaimInfo where
  session : String
  target : String
  amount : String
  claim : ClaimData
deriving DecidableEq, Repr

/-- WalletState snapshot held by CwWalletManager.  The TS object is mutated
field-by-field by sendTokens / executeContract; the embedding passes the
updated record explicitly. -/
structure WalletState where
  ready : Bool
  sequence : Nat
  balance : Int
  nativeBalance : Int
deriving DecidableEq, Repr

/-- The faucetConfig keys consumed by the embedded components.  All monetary
values are decimal strings, as in the TS config. -/
structure Config where
  cwAddressPrefix : String
  cwDenom : String
  cwIsNativeToken : Bool
  cwGasAmount : String
  cwMinGasAmount : String
  cwMinAmount : String
  cwMaxAmount : String
  cwMaxPending : Nat
  cwRefillEnabled : Bool
  cwRefillContract : String
  cwRefillAmount : String
  cwRefillThreshold : String
  cwRefillOverflowAmount : String
  cwRefillCooldown : Nat
deriving DecidableEq, Repr

/-! ## CwWalletManager.sendTokens (src/cw/CwWalletManager.ts, lines 258-326)

The chain broadcast is external; its outcome is the oracle argument
broadcastOk.  On success the source mutates walletState in place:
sequence++, balance -= amount, and nativeBalance -= amount + gasAmount for a
native token or nativeBalance -= gasAmount for a contract token.  On a
broadcast exception the wallet state is untouched (the mutations follow the
await). -/

/-- Error outcomes of sendTokens. -/
inductive SendErr
  | walletNotReady
  | txBroadcastFailed
deriving DecidableEq, Repr

/-- The optimistic local deltas applied by sendTokens after a successful
broadcast. -/
def sendTokensApply (cfg : Config) (amount : Int) (ws : WalletState) :
    WalletState :=
  { ws with
    sequence := ws.sequence + 1
    balance := ws.balance - amount
    nativeBalance :=
      if cfg.cwIsNativeToken then
        ws.nativeBalance - (amount + parseDecInt cfg.cwGasAmount)
      else
        ws.nativeBalance - parseDecInt cfg.cwGasAmount }

/-- CwWalletManager.sendTokens: fails when the wallet is not ready, fails
without touching state when the broadcast throws, and applies the optimistic
deltas on success. -/
def sendTokens (cfg : Config) (ws : WalletState) (amount : String)
    (broadcastOk : Bool) : Except SendErr WalletState :=
  if !ws.ready then
    .error .walletNotReady
  else if broadcastOk then
    .ok (sendTokensApply cfg (parseDecInt amount) ws)
  else
    .error .txBroadcastFailed

/-- A run of consecutive sendTokens calls, each with a successful broadcast,
with no intervening loadWalletState. -/
def sendTokensMany (cfg : Config) (ws : WalletState) :
    List String → Except SendErr WalletState
  | [] => .ok ws
  | a :: rest =>
    match sendTokens cfg ws a true with
    | .ok ws2 => sendTokensMany cfg ws2 rest
    | .error e => .error e

/-! ## CwClaimManager state (src/cw/CwClaimManager.ts)

The embedding combines the CwClaimManager instance fields, the wallet state
it reads through CwWalletManager.getWalletState() (the same object that
sendTokens mutates in place, so guard re-reads inside the tick loop observe
the optimistic debits), the static lastNotificationData slot of
CwClaimNotificationClient, and an event log of emitted broadcasts. -/

/-- IClaimNotificationData: the progress pair carried by a broadcast. -/
structure NData where
  processedIdx : Nat
  confirmedIdx : Nat
deriving DecidableEq, Repr

/-- Combined system state for the claim pipeline. -/
structure SysState where
  claimTxDict : List (String × ClaimInfo)
  claimTxQueue : List ClaimInfo
  pendingTxQueue : List (String × ClaimInfo)
  historyTxDict : List (Nat × ClaimInfo)
  lastClaimTxIdx : Nat
  lastProcessedClaimTxIdx : Nat
  lastConfirmedClaimTxIdx : Nat
  lastNotificationData : Option NData
  ws : WalletState
  clientLastData : Option NData
  broadcasts : List NData
deriving DecidableEq, Repr

/-- CwClaimNotificationClient.broadcastClaimNotification: stores the data in
the client class's static slot and delivers it to subscribers (delivery is
recorded in the broadcasts event log). -/
def broadcastClaimNotification (st : SysState) (d : NData) : SysState :=
  { st with
    clientLastData := some d
    broadcasts := st.broadcasts ++ [d] }

/-- Helper: mark a claim FAILED with the given txError, mirroring the three
failure arms of processQueueTx.  The claim object is shared with
claimTxDict in the source (mutation through the reference), so the dict
binding is updated when present. -/
def failClaim (st : SysState) (c : ClaimInfo) (msg : String) :
    SysState × ClaimInfo :=
  let c2 := { c with claim :=
    { c.claim with claimStatus := .failed, txError := some msg } }
  let dict := match assocFind st.claimTxDict c.session with
    | some _ => assocSet st.claimTxDict c.session c2
    | none => st.claimTxDict
  ({ st with claimTxDict := dict }, c2)

/-- CwClaimManager.processQueueTx (lines 309-357).  The outcome of the
sendTokens broadcast is the oracle: some txHash on success, none when the
call throws.  The spawned confirmation watcher is not run here; it is
modelled separately by awaitTxConfirmation. -/
def processQueueTx (cfg : Config) (st : SysState) (c : ClaimInfo)
    (sendOutcome : Option String) : SysState :=
  if !st.ws.ready then
    (failClaim st c "Network RPC is currently unreachable.").1
  else if st.ws.nativeBalance ≤ parseDecInt cfg.cwMinGasAmount then
    (failClaim st c "Faucet wallet is out of gas funds.").1
  else
    match sendOutcome with
    | none =>
      (failClaim st c "Processing Exception: send failed").1
    | some txHash =>
      let ws2 := sendTokensApply cfg (parseDecInt c.amount) st.ws
      let c2 := { c with claim :=
        { c.claim with claimStatus := .pending, txHash := some txHash } }
      let dict := match assocFind st.claimTxDict c.session with
        | some _ => assocSet st.claimTxDict c.session c2
        | none => st.claimTxDict
      { st with
        ws := ws2
        pendingTxQueue := assocSet st.pendingTxQueue txHash c2
        claimTxDict := dict }

/-- The while loop of CwClaimManager.processQueue (lines 272-286).  The
queue is threaded as the recursion argument; the returned trace records,
for each dequeued claim, the wallet state observed at the moment the guard
admitted the dequeue.  The remaining queue is written back on exit. -/
def processLoop (cfg : Config) :
    List ClaimInfo → SysState → List (Option String) →
    SysState × List (WalletState × ClaimInfo)
  | [], st, _ => ({ st with claimTxQueue := [] }, [])
  | c :: rest, st, outs =>
    if st.pendingTxQueue.length < cfg.cwMaxPending then
      if st.ws.ready &&
          !(st.ws.nativeBalance ≤ parseDecInt cfg.cwMinGasAmount) then
        let st1 := { st with lastProcessedClaimTxIdx := c.claim.claimIdx }
        let st2 := processQueueTx cfg st1 c (outs.headD none)
        let r := processLoop cfg rest st2 outs.tail
        (r.1, (st.ws, c) :: r.2)
      else
        ({ st with claimTxQueue := c :: rest }, [])
    else
      ({ st with claimTxQueue := c :: rest }, [])

/-- One tick of CwClaimManager.processQueue (lines 264-307): drain the queue
subject to the pending bound and the wallet gate, then broadcast the
progress pair when the changed-check passes.  Note the source compares
against this.lastNotificationData, a field that is never assigned, and does
not update it after broadcasting. -/
def processQueueTick (cfg : Config) (st : SysState)
    (outs : List (Option String)) :
    SysState × List (WalletState × ClaimInfo) :=
  let r := processLoop cfg st.claimTxQueue st outs
  let st1 := r.1
  let changed := match st1.lastNotificationData with
    | none => true
    | some d =>
      d.processedIdx != st1.lastProcessedClaimTxIdx ||
      d.confirmedIdx != st1.lastConfirmedClaimTxIdx
  if changed then
    (broadcastClaimNotification st1
      ⟨st1.lastProcessedClaimTxIdx, st1.lastConfirmedClaimTxIdx⟩, r.2)
  else
    (st1, r.2)

/-! ## Confirmation watcher (CwClaimManager.awaitTxConfirmation, lines 359-408) -/

/-- Result of queryClient.getTx for a hash. -/
structure TxResult where
  code : Nat
  height : Nat
deriving DecidableEq, Repr

/-- Shared tail of the success and failure arms of awaitTxConfirmation:
remove the claim from pendingTxQueue (when it has a hash) and from
claimTxDict, store the updated claim, then run the finally block, which
files the claim in historyTxDict keyed by the wallet's current sequence
number. -/
def settleClaim (st : SysState) (c2 : ClaimInfo) : SysState :=
  let pending := match c2.claim.txHash with
    | some h => assocErase st.pendingTxQueue h
    | none => st.pendingTxQueue
  let dict := assocErase st.claimTxDict c2.session
  { st with
    pendingTxQueue := pending
    claimTxDict := dict
    historyTxDict := assocSetNat st.historyTxDict st.ws.sequence c2 }

/-- CwClaimManager.awaitTxConfirmation given the getTx result (none when the
query throws or finds no transaction).  On code 0 the claim is CONFIRMED,
txHeight/txFee are recorded and lastConfirmedClaimTxIdx is assigned the
claim's claimIdx (a plain assignment in the source, line 380).  Every other
outcome lands in the catch arm and marks the claim FAILED. -/
def awaitTxConfirmation (cfg : Config) (st : SysState) (c : ClaimInfo)
    (tx : Option TxResult) : SysState :=
  match c.claim.txHash, tx with
  | some _, some t =>
    if t.code = 0 then
      let c2 := { c with claim :=
        { c.claim with
          claimStatus := .confirmed
          txHeight := some t.height
          txFee := some cfg.cwGasAmount } }
      let st2 := { st with lastConfirmedClaimTxIdx := c.claim.claimIdx }
      settleClaim st2 c2
    else
      let c2 := { c with claim :=
        { c.claim with
          claimStatus := .failed
          txError := some "Transaction Error: Transaction failed" } }
      settleClaim st c2
  | _, _ =>
    let c2 := { c with claim :=
      { c.claim with
        claimStatus := .failed
        txError := some "Transaction Error: Transaction failed" } }
    settleClaim st c2

/-! ## CwClaimManager.createSessionClaim (lines 194-262) -/

/-- FaucetSessionStatus values relevant to the claim pipeline. -/
inductive SessionStatus
  | running
  | claimable
  | claiming
  | finished
  | failed
deriving DecidableEq, Repr

/-- FaucetSessionStoreData fields consumed by createSessionClaim. -/
structure SessionStoreData where
  sessionId : String
  status : SessionStatus
  targetAddr : String
  dropAmount : String
deriving DecidableEq, Repr

/-- FaucetError codes raised by the embedded operations. -/
inductive FaucetErrKind
  | notClaimable
  | amountTooLow
  | amountTooHigh
  | invalidAddress
  | raceClaiming
  | internalError
deriving DecidableEq, Repr

/-- Outcome of the SessionClaim module-hook chain, an external oracle: it
may succeed, throw a FaucetError (re-raised verbatim) or throw any other
exception (wrapped as INTERNAL_ERROR). -/
inductive HookOutcome
  | ok
  | faucetErr (k : FaucetErrKind)
  | otherErr
deriving DecidableEq, Repr

/-- CwClaimManager.createSessionClaim.  The method mutates this, so the
embedding returns the updated state together with the thrown error or the
created ClaimInfo.  The claim index is taken from lastClaimTxIdx with a
post-increment before the module hooks run; the queue and dict insertions
happen only after the hooks and the database write succeed. -/
def createSessionClaim (cfg : Config) (st : SysState)
    (sd : SessionStoreData) (hook : HookOutcome) (nowTime : Nat) :
    SysState × Except FaucetErrKind ClaimInfo :=
  if sd.status ≠ .claimable then
    (st, .error .notClaimable)
  else if parseDecInt sd.dropAmount < parseDecInt cfg.cwMinAmount then
    (st, .error .amountTooLow)
  else if parseDecInt sd.dropAmount > parseDecInt cfg.cwMaxAmount then
    (st, .error .amountTooHigh)
  else if !strStartsWith sd.targetAddr cfg.cwAddressPrefix then
    (st, .error .invalidAddress)
  else if (assocFind st.claimTxDict sd.sessionId).isSome then
    (st, .error .raceClaiming)
  else
    let idx := st.lastClaimTxIdx
    let st1 := { st with lastClaimTxIdx := idx + 1 }
    let claimInfo : ClaimInfo :=
      ⟨sd.sessionId, sd.targetAddr, sd.dropAmount,
        ⟨idx, .queue, nowTime, none, none, none, none⟩⟩
    match hook with
    | .faucetErr k => (st1, .error k)
    | .otherErr => (st1, .error .internalError)
    | .ok =>
      ({ st1 with
        claimTxQueue := st1.claimTxQueue ++ [claimInfo]
        claimTxDict := assocSet st1.claimTxDict sd.sessionId claimInfo },
        .ok claimInfo)

/-! ## Startup recovery (CwClaimManager, lines 42-94) -/

/-- JS truthiness of an optional string field: undefined and the empty
string are falsy. -/
def optTruthy : Option String → Bool
  | none => false
  | some s => s != ""

/-- A session returned by getSessions([CLAIMING]); the source asserts the
claim record is present (sessionData.claim!). -/
structure StoredClaimingSession where
  sessionId : String
  targetAddr : String
  dropAmount : String
  claim : ClaimData
deriving DecidableEq, Repr

/-- The ClaimInfo rebuilt from a stored CLAIMING session. -/
def mkClaimInfo (s : StoredClaimingSession) : ClaimInfo :=
  ⟨s.sessionId, s.targetAddr, s.dropAmount, s.claim⟩

/-- Accumulator of the recovery forEach loop: queue, dict, pending, started
watchers and maxQueueIdx. -/
structure RAcc where
  q : List ClaimInfo
  d : List (String × ClaimInfo)
  p : List (String × ClaimInfo)
  w : List ClaimInfo
  m : Nat
deriving DecidableEq, Repr

/-- One iteration of the recovery forEach: QUEUE and PROCESSING claims go to
the queue and the dict; PENDING claims go to pendingTxQueue (when the hash
is truthy) and the dict, and a confirmation watcher is started; any other
status logs, then returns early, skipping the maxQueueIdx update. -/
def restoreStep (acc : RAcc) (s : StoredClaimingSession) : RAcc :=
  let c := mkClaimInfo s
  match s.claim.claimStatus with
  | .queue =>
    ⟨acc.q ++ [c], assocSet acc.d c.session c, acc.p, acc.w,
      if c.claim.claimIdx > acc.m then c.claim.claimIdx else acc.m⟩
  | .processing =>
    ⟨acc.q ++ [c], assocSet acc.d c.session c, acc.p, acc.w,
      if c.claim.claimIdx > acc.m then c.claim.claimIdx else acc.m⟩
  | .pending =>
    let p2 := match s.claim.txHash with
      | some h => if h != "" then assocSet acc.p h c else acc.p
      | none => acc.p
    ⟨acc.q, assocSet acc.d c.session c, p2, acc.w ++ [c],
      if c.claim.claimIdx > acc.m then c.claim.claimIdx else acc.m⟩
  | _ => acc

/-- Ordering of ClaimInfos used by the recovery sort comparator
(a, b) => a.claim.claimIdx - b.claim.claimIdx. -/
def claimIdxLe (a b : ClaimInfo) : Prop :=
  a.claim.claimIdx ≤ b.claim.claimIdx

instance : DecidableRel claimIdxLe :=
  fun a b => Nat.decLe a.claim.claimIdx b.claim.claimIdx

instance : IsTotal ClaimInfo claimIdxLe :=
  ⟨fun a b => Nat.le_total a.claim.claimIdx b.claim.claimIdx⟩

instance : IsTrans ClaimInfo claimIdxLe :=
  ⟨fun _ _ _ h1 h2 => Nat.le_trans h1 h2⟩

/-- Startup recovery of CwClaimManager (lines 42-94): rebuild the claim
collections from every persisted CLAIMING session, sort the queue by
claimIdx and set lastClaimTxIdx to maxQueueIdx + 1.  Returns the recovered
state together with the list of claims whose confirmation watchers were
started. -/
def restoreClaimState (sessions : List StoredClaimingSession) :
    SysState × List ClaimInfo :=
  let acc := sessions.foldl restoreStep ⟨[], [], [], [], 0⟩
  (⟨acc.d, List.insertionSort claimIdxLe acc.q, acc.p, [],
    acc.m + 1, 0, 0, none, ⟨false, 0, 0, 0⟩, none, []⟩, acc.w)

/-! ## Refill controller (src/cw/CwWalletRefill.ts) -/

/-- Instance fields of CwWalletRefill (0 means never, and is falsy in the
cooldown checks). -/
structure RefillSt where
  lastRefillTime : Nat
  lastRefillTry : Nat
deriving DecidableEq, Repr

/-- The contract message built by executeRefill or executeOverflow. -/
inductive ChainMsg
  | withdraw (amount : String)
  | deposit
deriving DecidableEq, Repr

/-- One executeContract call issued by the refill controller: target
contract, message, and the amount attached in the fee struct (parsed from
its decimal string; gasAmount for a refill, the overflow amount for an
overflow deposit). -/
structure ChainTx where
  contract : String
  msg : ChainMsg
  fundsAmount : Int
deriving DecidableEq, Repr

/-- CwWalletRefill.tryRefillWallet (lines 28-137) together with the
executeRefill / executeOverflow helpers (lines 139-187).  unclaimed and
queued are the external balances read from SessionManager and
CwClaimManager; txOk tells whether the issued transaction broadcast and
confirmed (it controls only the lastRefillTime stamp).  Returns the updated
controller state and the list of executeContract calls issued. -/
def tryRefillWallet (cfg : Config) (rs : RefillSt) (now : Nat)
    (ws : WalletState) (unclaimed queued : Int) (txOk : Bool) :
    RefillSt × List ChainTx :=
  if !(cfg.cwRefillEnabled && strTruthy cfg.cwRefillContract) then
    (rs, [])
  else if rs.lastRefillTry != 0 && now - rs.lastRefillTry < 60 then
    (rs, [])
  else if rs.lastRefillTime != 0 && cfg.cwRefillCooldown != 0 &&
      now - rs.lastRefillTime < cfg.cwRefillCooldown then
    (rs, [])
  else
    let rs1 : RefillSt := ⟨rs.lastRefillTime, now⟩
    if !ws.ready then
      (rs1, [])
    else
      let availableBalance := ws.balance - unclaimed - queued
      if strTruthy cfg.cwRefillOverflowAmount &&
          availableBalance > parseDecInt cfg.cwRefillOverflowAmount then
        let overflowAmount :=
          availableBalance - parseDecInt cfg.cwRefillOverflowAmount
        let tx : ChainTx := ⟨cfg.cwRefillContract, .deposit, overflowAmount⟩
        if txOk then (⟨now, now⟩, [tx]) else (rs1, [tx])
      else if availableBalance < parseDecInt cfg.cwRefillThreshold then
        if !(strTruthy cfg.cwRefillContract && strTruthy cfg.cwRefillAmount)
        then
          (rs1, [])
        else
          let tx : ChainTx := ⟨cfg.cwRefillContract,
            .withdraw cfg.cwRefillAmount, parseDecInt cfg.cwGasAmount⟩
          if txOk then (⟨now, now⟩, [tx]) else (rs1, [tx])
      else
        (rs1, [])

/-! ## Status predicates over stored sessions -/

/-- Stored substatus QUEUE or PROCESSING: restored into the queue. -/
def isQP (s : StoredClaimingSession) : Bool :=
  s.claim.claimStatus == .queue || s.claim.claimStatus == .processing

/-- Stored substatus PENDING: restored into pendingTxQueue. -/
def isPend (s : StoredClaimingSession) : Bool :=
  s.claim.claimStatus == .pending

/-- Stored substatus restored at all (everything else logs and drops). -/
def isRestored (s : StoredClaimingSession) : Bool :=
  isQP s || isPend s

/-- The pendingTxQueue key of a restored PENDING session. -/
def pendKey (s : StoredClaimingSession) : String :=
  s.claim.txHash.getD ""

/-! ## Concrete fixtures used by the closed theorems -/

/-- Example configuration: native token, gas 200, min gas 1000, drop
bounds [10, 1000000], maxPending 5, refill band [100, 1000000]. -/
def cfgEx : Config :=
  ⟨"wasm", "uwasm", true, "200", "1000", "10", "1000000", 5,
    true, "treasury", "500", "100", "1000000", 600⟩

/-- Example configuration with cwMaxPending = 1. -/
def cfgMax1 : Config :=
  ⟨"wasm", "uwasm", true, "200", "1000", "10", "1000000", 1,
    true, "treasury", "500", "100", "1000000", 600⟩

/-- Example ready wallet. -/
def wsEx : WalletState := ⟨true, 7, 10000000, 5000⟩

/-- Fresh pipeline state over wsEx: everything empty, counters zero. -/
def stEmpty : SysState :=
  ⟨[], [], [], [], 1, 0, 0, none, wsEx, none, []⟩

/-- A claim pending confirmation with claimIdx 3 and hash h3. -/
def claimIdx3 : ClaimInfo :=
  ⟨"s3", "wasm1x", "50", ⟨3, .pending, 0, some "h3", none, none, none⟩⟩

/-- State whose confirmation watermark is already at 5 while claimIdx3 is
still awaiting confirmation (an out-of-order completion scenario). -/
def stWm5 : SysState :=
  ⟨[("s3", claimIdx3)], [], [("h3", claimIdx3)], [], 10, 9, 5, none,
    wsEx, none, []⟩

/-- A queued claim used by the gate fixtures. -/
def claimQ1 : ClaimInfo :=
  ⟨"q1", "wasm1q", "50", ⟨1, .queue, 0, none, none, none, none⟩⟩

/-- State with one queued claim and nativeBalance equal to cwMinGasAmount
exactly (1000). -/
def stGasEdge : SysState :=
  ⟨[("q1", claimQ1)], [claimQ1], [], [], 2, 0, 0, none,
    ⟨true, 7, 100, 1000⟩, none, []⟩

/-- Two persisted PENDING sessions with distinct hashes. -/
def sessPendA : StoredClaimingSession :=
  ⟨"PA", "wasm1a", "10", ⟨1, .pending, 0, some "ha", none, none, none⟩⟩

/-- Second persisted PENDING session. -/
def sessPendB : StoredClaimingSession :=
  ⟨"PB", "wasm1b", "10", ⟨2, .pending, 0, some "hb", none, none, none⟩⟩

/-- A persisted PROCESSING session with claimIdx 7 (spec scenario 6). -/
def sessProc7 : StoredClaimingSession :=
  ⟨"S3", "wasm1c", "10", ⟨7, .processing, 0, none, none, none, none⟩⟩

/-- A CLAIMABLE session passing every createSessionClaim precondition. -/
def sdOk : SessionStoreData := ⟨"sNew", .claimable, "wasm1new", "5000"⟩

/-- A persisted PENDING session with claimIdx 8 and txHash 0xAB (spec
scenario 6). -/
def sessPend8 : StoredClaimingSession :=
  ⟨"S4", "wasm1d", "10", ⟨8, .pending, 0, some "0xAB", none, none, none⟩⟩

/-- A queued claim with the given index and session id. -/
def qclaim (n : Nat) (s : String) : ClaimInfo :=
  ⟨s, "wasm1", "10", ⟨n, .queue, 0, none, none, none, none⟩⟩

/-- State with seven queued claims, an empty pending map and a rich ready
wallet, against cfgEx whose cwMaxPending is 5. -/
def stSeven : SysState :=
  ⟨[], [qclaim 1 "a", qclaim 2 "b", qclaim 3 "c", qclaim 4 "d",
      qclaim 5 "e", qclaim 6 "f", qclaim 7 "g"], [], [], 8, 0, 0, none,
    ⟨true, 0, 100000, 100000⟩, none, []⟩

/-- Send outcomes (seven fresh hashes) for the stSeven tick. -/
def outsSeven : List (Option String) :=
  [some "h1", some "h2", some "h3", some "h4", some "h5", some "h6",
    some "h7"]

/-! ## Theorems -/

/-- Ready flag is untouched by the optimistic send deltas. -/
theorem sendTokensApply_ready (cfg : Config) (a : Int) (ws : WalletState) :
    (sendTokensApply cfg a ws).ready = ws.ready := rfl

/-- C6: every successful sendTokens call increments the sequence, debits
tokenBalance by the amount for native and contract tokens alike, debits
nativeBalance by the gas amount, and additionally by the amount when the
token is native; consequently a run of n successful sends with no
intervening loadWalletState raises the sequence by exactly n. -/
theorem sendTokens_optimistic_deltas :
    (∀ (cfg : Config) (ws : WalletState) (a : String) (ok : Bool)
       (ws2 : WalletState), sendTokens cfg ws a ok = .ok ws2 →
       ws2.sequence = ws.sequence + 1 ∧
       ws2.balance = ws.balance - parseDecInt a ∧
       (cfg.cwIsNativeToken = true →
         ws2.nativeBalance =
           ws.nativeBalance - (parseDecInt a + parseDecInt cfg.cwGasAmount)) ∧
       (cfg.cwIsNativeToken = false →
         ws2.nativeBalance =
           ws.nativeBalance - parseDecInt cfg.cwGasAmount)) ∧
    (∀ (cfg : Config) (ws : WalletState) (amounts : List String)
       (ws2 : WalletState), ws.ready = true →
       sendTokensMany cfg ws amounts = .ok ws2 →
       ws2.sequence = ws.sequence + amounts.length) := by
  constructor
  · intro cfg ws a ok ws2 h
    cases hr : ws.ready with
    | false => simp [sendTokens, hr] at h
    | true =>
      cases ok with
      | false => simp [sendTokens, hr] at h
      | true =>
        simp [sendTokens, hr] at h
        subst h
        refine ⟨rfl, rfl, ?_, ?_⟩ <;> intro hn <;>
          simp [sendTokensApply, hn]
  · intro cfg ws amounts
    induction amounts generalizing ws with
    | nil =>
      intro ws2 _ h
      simp [sendTokensMany] at h
      subst h
      rfl
    | cons a rest ih =>
      intro ws2 hr h
      rw [sendTokensMany, sendTokens] at h
      simp [hr] at h
      have hready : (sendTokensApply cfg (parseDecInt a) ws).ready = true := by
        rw [sendTokensApply_ready, hr]
      have := ih (sendTokensApply cfg (parseDecInt a) ws) ws2 hready h
      simp [sendTokensApply] at this
      simp [this, List.length_cons]
      omega

/-- Witness for C6: concrete send of 300 base units from wsEx, and a run of
three successful sends. -/
theorem sendTokens_optimistic_deltas_witness :
    ((sendTokensApply cfgEx (parseDecInt "300") wsEx).sequence =
        wsEx.sequence + 1 ∧
     (sendTokensApply cfgEx (parseDecInt "300") wsEx).balance =
        wsEx.balance - parseDecInt "300" ∧
     (sendTokensApply cfgEx (parseDecInt "300") wsEx).nativeBalance =
        wsEx.nativeBalance -
          (parseDecInt "300" + parseDecInt cfgEx.cwGasAmount)) ∧
    (WalletState.sequence ⟨true, 10, 9999994, 4394⟩ =
      wsEx.sequence + (["1", "2", "3"] : List String).length) := by
  constructor
  · have h := sendTokens_optimistic_deltas.1 cfgEx wsEx "300" true
      (sendTokensApply cfgEx (parseDecInt "300") wsEx) rfl
    exact ⟨h.1, h.2.1, h.2.2.1 rfl⟩
  · exact sendTokens_optimistic_deltas.2 cfgEx wsEx ["1", "2", "3"]
      ⟨true, 10, 9999994, 4394⟩ rfl rfl

/-- C2 counterexample: from a state whose watermark is 5, confirming the
still-pending claim with claimIdx 3 (getTx code 0) drops
lastConfirmedClaimTxIdx to 3; it is not max(5, 3) and it decreases. -/
theorem lastConfirmed_decreases_counterexample :
    (awaitTxConfirmation cfgEx stWm5 claimIdx3
        (some ⟨0, 42⟩)).lastConfirmedClaimTxIdx = 3 ∧
    stWm5.lastConfirmedClaimTxIdx = 5 ∧
    ¬((awaitTxConfirmation cfgEx stWm5 claimIdx3
        (some ⟨0, 42⟩)).lastConfirmedClaimTxIdx =
      max stWm5.lastConfirmedClaimTxIdx claimIdx3.claim.claimIdx) ∧
    (awaitTxConfirmation cfgEx stWm5 claimIdx3
        (some ⟨0, 42⟩)).lastConfirmedClaimTxIdx <
      stWm5.lastConfirmedClaimTxIdx := by
  refine ⟨rfl, rfl, ?_, ?_⟩ <;> decide

/-- C2 amended: on every successful confirmation (claim has a txHash and
getTx returns code 0), lastConfirmedClaimTxIdx is assigned the confirmed
claim's claimIdx unconditionally, so an out-of-order confirmation with a
lower claimIdx lowers the watermark rather than leaving it unchanged. -/
theorem awaitTxConfirmation_assigns_confirmed_idx
    (cfg : Config) (st : SysState) (c : ClaimInfo) (t : TxResult)
    (h : String) (hh : c.claim.txHash = some h) (hc : t.code = 0) :
    (awaitTxConfirmation cfg st c
        (some t)).lastConfirmedClaimTxIdx = c.claim.claimIdx := by
  simp [awaitTxConfirmation, hh, hc, settleClaim]

/-- Witness for the amended C2: the concrete confirmation of claimIdx3. -/
theorem awaitTxConfirmation_assigns_confirmed_idx_witness :
    (awaitTxConfirmation cfgEx stWm5 claimIdx3
        (some ⟨0, 42⟩)).lastConfirmedClaimTxIdx = claimIdx3.claim.claimIdx :=
  awaitTxConfirmation_assigns_confirmed_idx cfgEx stWm5 claimIdx3 ⟨0, 42⟩
    "h3" rfl rfl

/-- C1 failing run: the first tick on a fresh empty-queue state broadcasts
(0, 0); the second tick dequeues nothing and confirms nothing, the
progress pair still equals the pair carried by the most recent broadcast,
yet a second identical broadcast is emitted, because the source checks
CwClaimManager.lastNotificationData, a field that no code path ever
assigns (it stays null after broadcasting, as the third conjunct shows). -/
theorem everyTick_broadcasts_failing_run :
    (processQueueTick cfgEx stEmpty []).1.broadcasts = [⟨0, 0⟩] ∧
    (processQueueTick cfgEx
        (processQueueTick cfgEx stEmpty []).1 []).1.broadcasts =
      [⟨0, 0⟩, ⟨0, 0⟩] ∧
    (processQueueTick cfgEx stEmpty []).1.lastNotificationData = none ∧
    (processQueueTick cfgEx
        (processQueueTick cfgEx stEmpty []).1 []).2 = [] ∧
    (processQueueTick cfgEx
        (processQueueTick cfgEx stEmpty []).1
        []).1.lastProcessedClaimTxIdx = stEmpty.lastProcessedClaimTxIdx ∧
    (processQueueTick cfgEx
        (processQueueTick cfgEx stEmpty []).1
        []).1.lastConfirmedClaimTxIdx = stEmpty.lastConfirmedClaimTxIdx := by
  refine ⟨rfl, rfl, rfl, rfl, rfl, rfl⟩

/-- C8: a refill invocation that passes both cooldowns, with the refill
path enabled and configured and the wallet ready, issues exactly one
overflow deposit attaching available - refillOverflowAmount as funds when
available exceeds refillOverflowAmount; otherwise exactly one withdraw of
refillAmount when available is below refillThreshold; otherwise no chain
transaction (available = tokenBalance - unclaimedBalance - queuedAmount). -/
theorem tryRefillWallet_band (cfg : Config) (rs : RefillSt) (now : Nat)
    (ws : WalletState) (unclaimed queued : Int) (txOk : Bool)
    (hEn : cfg.cwRefillEnabled = true)
    (hC : strTruthy cfg.cwRefillContract = true)
    (hTry : rs.lastRefillTry = 0 ∨ 60 ≤ now - rs.lastRefillTry)
    (hCool : rs.lastRefillTime = 0 ∨ cfg.cwRefillCooldown = 0 ∨
      cfg.cwRefillCooldown ≤ now - rs.lastRefillTime)
    (hReady : ws.ready = true)
    (hOv : strTruthy cfg.cwRefillOverflowAmount = true)
    (hAm : strTruthy cfg.cwRefillAmount = true) :
    (ws.balance - unclaimed - queued >
        parseDecInt cfg.cwRefillOverflowAmount →
      (tryRefillWallet cfg rs now ws unclaimed queued txOk).2 =
        [⟨cfg.cwRefillContract, .deposit,
          ws.balance - unclaimed - queued -
            parseDecInt cfg.cwRefillOverflowAmount⟩]) ∧
    (ws.balance - unclaimed - queued ≤
        parseDecInt cfg.cwRefillOverflowAmount →
     ws.balance - unclaimed - queued < parseDecInt cfg.cwRefillThreshold →
      (tryRefillWallet cfg rs now ws unclaimed queued txOk).2 =
        [⟨cfg.cwRefillContract, .withdraw cfg.cwRefillAmount,
          parseDecInt cfg.cwGasAmount⟩]) ∧
    (ws.balance - unclaimed - queued ≤
        parseDecInt cfg.cwRefillOverflowAmount →
     ¬(ws.balance - unclaimed - queued <
        parseDecInt cfg.cwRefillThreshold) →
      (tryRefillWallet cfg rs now ws unclaimed queued txOk).2 = []) := by
  have b2 : (rs.lastRefillTry != 0 &&
      decide (now - rs.lastRefillTry < 60)) = false := by
    rcases hTry with h | h
    · simp [h]
    · simp only [Bool.and_eq_false_iff, decide_eq_false_iff_not]
      right
      omega
  have b3 : (rs.lastRefillTime != 0 && cfg.cwRefillCooldown != 0 &&
      decide (now - rs.lastRefillTime < cfg.cwRefillCooldown)) = false := by
    rcases hCool with h | h | h
    · simp [h]
    · simp [h]
    · simp only [Bool.and_eq_false_iff, decide_eq_false_iff_not]
      right
      omega
  have hCoolP : ¬((¬rs.lastRefillTime = 0 ∧ ¬cfg.cwRefillCooldown = 0) ∧
      now - rs.lastRefillTime < cfg.cwRefillCooldown) := by
    rcases hCool with h | h | h
    · exact fun hx => hx.1.1 h
    · exact fun hx => hx.1.2 h
    · omega
  refine ⟨?_, ?_, ?_⟩
  · intro hgt
    simp only [tryRefillWallet, hEn, hC, b2, b3, hReady, hOv,
      Bool.and_self, Bool.not_true, Bool.true_and, Bool.false_eq_true,
      if_false, Bool.not_false, decide_eq_true_eq, hgt, if_true, hCoolP]
    cases txOk <;> simp [hCoolP]
  · intro hle hlt
    simp only [tryRefillWallet, hEn, hC, b2, b3, hReady, hOv, hAm,
      Bool.and_self, Bool.not_true, Bool.true_and, Bool.false_eq_true,
      if_false, Bool.not_false, decide_eq_true_eq, Int.not_lt.mpr hle,
      hlt, if_true, hCoolP]
    cases txOk <;> simp [hCoolP]
  · intro hle hnlt
    simp only [tryRefillWallet, hEn, hC, b2, b3, hReady, hOv,
      Bool.and_self, Bool.not_true, Bool.true_and, Bool.false_eq_true,
      if_false, Bool.not_false, decide_eq_true_eq, Int.not_lt.mpr hle,
      hnlt, if_true, hCoolP]

/-- Witness for C8: under cfgEx (band [100, 1000000], refillAmount 500),
an available balance of 10000000 - 999 triggers one deposit of the excess;
an available balance of 50 triggers one withdraw of 500; 500 does
nothing. -/
theorem tryRefillWallet_band_witness :
    (tryRefillWallet cfgEx ⟨0, 0⟩ 1000 ⟨true, 1, 10000000, 999⟩ 0 0
        true).2 = [⟨"treasury", .deposit, 9000000⟩] ∧
    (tryRefillWallet cfgEx ⟨0, 0⟩ 1000 ⟨true, 1, 50, 999⟩ 0 0
        true).2 = [⟨"treasury", .withdraw "500", 200⟩] ∧
    (tryRefillWallet cfgEx ⟨0, 0⟩ 1000 ⟨true, 1, 500, 999⟩ 0 0
        true).2 = [] := by
  refine ⟨?_, ?_, ?_⟩
  · have h := (tryRefillWallet_band cfgEx ⟨0, 0⟩ 1000 ⟨true, 1, 10000000, 999⟩
      0 0 true rfl rfl (Or.inl rfl) (Or.inl rfl) rfl rfl rfl).1
      (by decide)
    simpa using h
  · have h := (tryRefillWallet_band cfgEx ⟨0, 0⟩ 1000 ⟨true, 1, 50, 999⟩
      0 0 true rfl rfl (Or.inl rfl) (Or.inl rfl) rfl rfl rfl).2.1
      (by decide) (by decide)
    simpa using h
  · have h := (tryRefillWallet_band cfgEx ⟨0, 0⟩ 1000 ⟨true, 1, 500, 999⟩
      0 0 true rfl rfl (Or.inl rfl) (Or.inl rfl) rfl rfl rfl).2.2
      (by decide) (by decide)
    simpa using h

/-- C4: createSessionClaim evaluates its preconditions in order and throws
the first violated one, comparing drop amounts against the configured
bounds as arbitrary-precision integers parsed from decimal strings:
status not CLAIMABLE gives NOT_CLAIMABLE; then dropAmount below cwMinAmount
gives AMOUNT_TOO_LOW; then dropAmount above cwMaxAmount gives
AMOUNT_TOO_HIGH; then a target address not starting with cwAddressPrefix
gives INVALID_ADDRESS; then an existing claimTxDict entry for the session
gives RACE_CLAIMING. -/
theorem createSessionClaim_precondition_order (cfg : Config) (st : SysState)
    (sd : SessionStoreData) (hook : HookOutcome) (t : Nat) :
    (sd.status ≠ .claimable →
      (createSessionClaim cfg st sd hook t).2 = .error .notClaimable) ∧
    (sd.status = .claimable →
     parseDecInt sd.dropAmount < parseDecInt cfg.cwMinAmount →
      (createSessionClaim cfg st sd hook t).2 = .error .amountTooLow) ∧
    (sd.status = .claimable →
     ¬(parseDecInt sd.dropAmount < parseDecInt cfg.cwMinAmount) →
     parseDecInt sd.dropAmount > parseDecInt cfg.cwMaxAmount →
      (createSessionClaim cfg st sd hook t).2 = .error .amountTooHigh) ∧
    (sd.status = .claimable →
     ¬(parseDecInt sd.dropAmount < parseDecInt cfg.cwMinAmount) →
     ¬(parseDecInt sd.dropAmount > parseDecInt cfg.cwMaxAmount) →
     strStartsWith sd.targetAddr cfg.cwAddressPrefix = false →
      (createSessionClaim cfg st sd hook t).2 = .error .invalidAddress) ∧
    (sd.status = .claimable →
     ¬(parseDecInt sd.dropAmount < parseDecInt cfg.cwMinAmount) →
     ¬(parseDecInt sd.dropAmount > parseDecInt cfg.cwMaxAmount) →
     strStartsWith sd.targetAddr cfg.cwAddressPrefix = true →
     (assocFind st.claimTxDict sd.sessionId).isSome = true →
      (createSessionClaim cfg st sd hook t).2 = .error .raceClaiming) := by
  refine ⟨?_, ?_, ?_, ?_, ?_⟩
  · intro h1
    simp [createSessionClaim, h1]
  · intro h1 h2
    simp [createSessionClaim, h1, h2]
  · intro h1 h2 h3
    simp [createSessionClaim, h1, h2, h3]
  · intro h1 h2 h3 h4
    simp [createSessionClaim, h1, h2, h3, h4]
  · intro h1 h2 h3 h4 h5
    simp [createSessionClaim, h1, h2, h3, h4, h5]

/-- Witness for C4: each precondition failure exercised on a concrete
session against stEmpty (or, for the race case, a state already holding a
claim for the session). -/
theorem createSessionClaim_precondition_order_witness :
    (createSessionClaim cfgEx stEmpty
        ⟨"w1", .running, "wasm1w", "5000"⟩ .ok 0).2 = .error .notClaimable ∧
    (createSessionClaim cfgEx stEmpty
        ⟨"w1", .claimable, "wasm1w", "5"⟩ .ok 0).2 = .error .amountTooLow ∧
    (createSessionClaim cfgEx stEmpty
        ⟨"w1", .claimable, "wasm1w", "2000000"⟩ .ok 0).2 =
      .error .amountTooHigh ∧
    (createSessionClaim cfgEx stEmpty
        ⟨"w1", .claimable, "cosmos1w", "5000"⟩ .ok 0).2 =
      .error .invalidAddress ∧
    (createSessionClaim cfgEx stWm5
        ⟨"s3", .claimable, "wasm1w", "5000"⟩ .ok 0).2 =
      .error .raceClaiming := by
  refine ⟨?_, ?_, ?_, ?_, ?_⟩
  · exact (createSessionClaim_precondition_order cfgEx stEmpty
      ⟨"w1", .running, "wasm1w", "5000"⟩ .ok 0).1 (by decide)
  · exact (createSessionClaim_precondition_order cfgEx stEmpty
      ⟨"w1", .claimable, "wasm1w", "5"⟩ .ok 0).2.1 rfl (by decide)
  · exact (createSessionClaim_precondition_order cfgEx stEmpty
      ⟨"w1", .claimable, "wasm1w", "2000000"⟩ .ok 0).2.2.1 rfl
      (by decide) (by decide)
  · exact (createSessionClaim_precondition_order cfgEx stEmpty
      ⟨"w1", .claimable, "cosmos1w", "5000"⟩ .ok 0).2.2.2.1 rfl
      (by decide) (by decide) (by decide)
  · exact (createSessionClaim_precondition_order cfgEx stWm5
      ⟨"s3", .claimable, "wasm1w", "5000"⟩ .ok 0).2.2.2.2 rfl
      (by decide) (by decide) (by decide) (by decide)

/-- C10: whenever createSessionClaim throws, the queue, bySession dict and
pending map are exactly as before the call; the claim-index counter is
advanced by at most one, and it has been advanced precisely when the
failure arose at the module-hook stage, that is, when all five
preconditions had already passed. -/
theorem createSessionClaim_error_rollback (cfg : Config) (st : SysState)
    (sd : SessionStoreData) (hook : HookOutcome) (t : Nat)
    (st2 : SysState) (e : FaucetErrKind)
    (h : createSessionClaim cfg st sd hook t = (st2, .error e)) :
    st2.claimTxQueue = st.claimTxQueue ∧
    st2.claimTxDict = st.claimTxDict ∧
    st2.pendingTxQueue = st.pendingTxQueue ∧
    (st2.lastClaimTxIdx = st.lastClaimTxIdx ∨
      st2.lastClaimTxIdx = st.lastClaimTxIdx + 1) ∧
    ((sd.status = .claimable ∧
      ¬(parseDecInt sd.dropAmount < parseDecInt cfg.cwMinAmount) ∧
      ¬(parseDecInt sd.dropAmount > parseDecInt cfg.cwMaxAmount) ∧
      strStartsWith sd.targetAddr cfg.cwAddressPrefix = true ∧
      assocFind st.claimTxDict sd.sessionId = none) →
      st2.lastClaimTxIdx = st.lastClaimTxIdx + 1) := by
  unfold createSessionClaim at h
  split_ifs at h with h1 h2 h3 h4 h5
  · injection h with hA hB
    subst hA
    exact ⟨rfl, rfl, rfl, Or.inl rfl, fun hp => absurd hp.1 h1⟩
  · injection h with hA hB
    subst hA
    exact ⟨rfl, rfl, rfl, Or.inl rfl, fun hp => absurd h2 hp.2.1⟩
  · injection h with hA hB
    subst hA
    exact ⟨rfl, rfl, rfl, Or.inl rfl, fun hp => absurd h3 hp.2.2.1⟩
  · injection h with hA hB
    subst hA
    refine ⟨rfl, rfl, rfl, Or.inl rfl, fun hp => ?_⟩
    rw [hp.2.2.2.1] at h4
    simp at h4
  · injection h with hA hB
    subst hA
    refine ⟨rfl, rfl, rfl, Or.inl rfl, fun hp => ?_⟩
    rw [hp.2.2.2.2] at h5
    simp at h5
  · cases hook with
    | ok => simp at h
    | faucetErr k =>
      simp only at h
      injection h with hA hB
      subst hA
      exact ⟨rfl, rfl, rfl, Or.inr rfl, fun _ => rfl⟩
    | otherErr =>
      simp only at h
      injection h with hA hB
      subst hA
      exact ⟨rfl, rfl, rfl, Or.inr rfl, fun _ => rfl⟩

/-- Witness for C10: a hook rejection on a session that passes every
precondition leaves the collections of stEmpty untouched while the index
counter has moved from 1 to 2. -/
theorem createSessionClaim_error_rollback_witness :
    (createSessionClaim cfgEx stEmpty sdOk .otherErr 0).1.claimTxQueue =
      stEmpty.claimTxQueue ∧
    (createSessionClaim cfgEx stEmpty sdOk .otherErr 0).1.claimTxDict =
      stEmpty.claimTxDict ∧
    (createSessionClaim cfgEx stEmpty sdOk .otherErr 0).1.pendingTxQueue =
      stEmpty.pendingTxQueue ∧
    (createSessionClaim cfgEx stEmpty sdOk .otherErr 0).1.lastClaimTxIdx =
      stEmpty.lastClaimTxIdx + 1 := by
  have h := createSessionClaim_error_rollback cfgEx stEmpty sdOk .otherErr 0
    (createSessionClaim cfgEx stEmpty sdOk .otherErr 0).1 .internalError rfl
  exact ⟨h.1, h.2.1, h.2.2.1,
    h.2.2.2.2 ⟨rfl, by decide, by decide, by decide, rfl⟩⟩

/-- The broadcast step at the end of a tick never changes the queue, so the
trace and queue of a tick are those of its dequeue loop. -/
theorem processQueueTick_loop_parts (cfg : Config) (st : SysState)
    (outs : List (Option String)) :
    (processQueueTick cfg st outs).2 =
      (processLoop cfg st.claimTxQueue st outs).2 ∧
    (processQueueTick cfg st outs).1.claimTxQueue =
      (processLoop cfg st.claimTxQueue st outs).1.claimTxQueue ∧
    (processQueueTick cfg st outs).1.pendingTxQueue =
      (processLoop cfg st.claimTxQueue st outs).1.pendingTxQueue := by
  simp only [processQueueTick, broadcastClaimNotification]
  split <;> exact ⟨rfl, rfl, rfl⟩

/-- Every dequeue in the loop happens under a wallet observed ready with
nativeBalance strictly above cwMinGasAmount. -/
theorem processLoop_trace_gate (cfg : Config) :
    ∀ (queue : List ClaimInfo) (st : SysState) (outs : List (Option String))
      (e : WalletState × ClaimInfo),
      e ∈ (processLoop cfg queue st outs).2 →
      e.1.ready = true ∧
        e.1.nativeBalance > parseDecInt cfg.cwMinGasAmount := by
  intro queue
  induction queue with
  | nil =>
    intro st outs e he
    simp [processLoop] at he
  | cons c rest ih =>
    intro st outs e he
    simp only [processLoop] at he
    by_cases hp : st.pendingTxQueue.length < cfg.cwMaxPending
    · rw [if_pos hp] at he
      by_cases hg : (st.ws.ready &&
          !decide (st.ws.nativeBalance ≤ parseDecInt cfg.cwMinGasAmount))
          = true
      · rw [if_pos hg] at he
        simp only [List.mem_cons] at he
        rcases he with he | he
        · subst he
          rcases (Bool.and_eq_true _ _).mp hg with ⟨hr, hn⟩
          refine ⟨hr, ?_⟩
          rw [Bool.not_eq_true', decide_eq_false_iff_not] at hn
          exact Int.not_le.mp hn
        · exact ih _ _ e he
      · rw [if_neg hg] at he
        simp at he
    · rw [if_neg hp] at he
      simp at he

/-- A loop entered with the wallet gate already failing dequeues nothing
and leaves the queue as it was. -/
theorem processLoop_gate_break (cfg : Config) (queue : List ClaimInfo)
    (st : SysState) (outs : List (Option String))
    (h : st.ws.ready = false ∨
      st.ws.nativeBalance ≤ parseDecInt cfg.cwMinGasAmount) :
    (processLoop cfg queue st outs).1.claimTxQueue = queue ∧
    (processLoop cfg queue st outs).2 = [] := by
  have hg : (st.ws.ready &&
      !decide (st.ws.nativeBalance ≤ parseDecInt cfg.cwMinGasAmount))
      = false := by
    rcases h with h | h
    · simp [h]
    · simp [h]
  cases queue with
  | nil => simp [processLoop]
  | cons c rest =>
    simp only [processLoop]
    by_cases hp : st.pendingTxQueue.length < cfg.cwMaxPending
    · rw [if_pos hp, hg]
      exact ⟨rfl, rfl⟩
    · rw [if_neg hp]
      exact ⟨rfl, rfl⟩

/-- C7: in every tick the wallet gate is evaluated before each dequeue, so
each dequeued claim was admitted with the wallet ready and nativeBalance
strictly above cwMinGasAmount; and a tick starting with the wallet not
ready, or nativeBalance at or below cwMinGasAmount (in particular exactly
equal), dequeues nothing and leaves the queue unchanged. -/
theorem queue_gate_blocks_dequeue (cfg : Config) (st : SysState)
    (outs : List (Option String)) :
    (∀ e ∈ (processQueueTick cfg st outs).2,
      e.1.ready = true ∧
        e.1.nativeBalance > parseDecInt cfg.cwMinGasAmount) ∧
    ((st.ws.ready = false ∨
        st.ws.nativeBalance ≤ parseDecInt cfg.cwMinGasAmount) →
      (processQueueTick cfg st outs).1.claimTxQueue = st.claimTxQueue ∧
      (processQueueTick cfg st outs).2 = []) := by
  obtain ⟨h2, h1, _⟩ := processQueueTick_loop_parts cfg st outs
  constructor
  · intro e he
    rw [h2] at he
    exact processLoop_trace_gate cfg st.claimTxQueue st outs e he
  · intro hgate
    obtain ⟨ha, hb⟩ :=
      processLoop_gate_break cfg st.claimTxQueue st outs hgate
    rw [h1, h2]
    exact ⟨ha, hb⟩

/-- Witness for C7: stGasEdge holds one queued claim and a ready wallet
with nativeBalance exactly cwMinGasAmount; the tick dequeues nothing and
the queue is untouched. -/
theorem queue_gate_blocks_dequeue_witness :
    (processQueueTick cfgEx stGasEdge [some "hh"]).1.claimTxQueue =
      stGasEdge.claimTxQueue ∧
    (processQueueTick cfgEx stGasEdge [some "hh"]).2 = [] :=
  (queue_gate_blocks_dequeue cfgEx stGasEdge [some "hh"]).2
    (Or.inr (by decide))

/-- Inserting one binding grows a JS-object map by at most one entry. -/
theorem assocSet_length_le {α : Type} (l : List (String × α)) (k : String)
    (v : α) : (assocSet l k v).length ≤ l.length + 1 := by
  induction l with
  | nil => simp [assocSet]
  | cons hd tl ih =>
    simp only [assocSet]
    split
    · simp
    · simpa using Nat.succ_le_succ ih

/-- Marking a claim FAILED never touches the pending map. -/
theorem failClaim_pending (st : SysState) (c : ClaimInfo) (msg : String) :
    (failClaim st c msg).1.pendingTxQueue = st.pendingTxQueue := rfl

/-- Processing one dequeued claim adds at most one pending entry. -/
theorem processQueueTx_pending_le (cfg : Config) (st : SysState)
    (c : ClaimInfo) (o : Option String) :
    (processQueueTx cfg st c o).pendingTxQueue.length ≤
      st.pendingTxQueue.length + 1 := by
  simp only [processQueueTx]
  split
  · rw [failClaim_pending]
    omega
  · split
    · rw [failClaim_pending]
      omega
    · split
      · rw [failClaim_pending]
        omega
      · split
        · exact assocSet_length_le _ _ _
        · exact assocSet_length_le _ _ _

/-- The dequeue loop preserves the pending bound: it dequeues only while
the pending map is strictly below cwMaxPending and each dequeue adds at
most one entry. -/
theorem processLoop_pending_bound (cfg : Config) :
    ∀ (queue : List ClaimInfo) (st : SysState)
      (outs : List (Option String)),
      st.pendingTxQueue.length ≤ cfg.cwMaxPending →
      (processLoop cfg queue st outs).1.pendingTxQueue.length ≤
        cfg.cwMaxPending := by
  intro queue
  induction queue with
  | nil =>
    intro st outs h
    simpa [processLoop] using h
  | cons c rest ih =>
    intro st outs h
    simp only [processLoop]
    by_cases hp : st.pendingTxQueue.length < cfg.cwMaxPending
    · rw [if_pos hp]
      by_cases hg : (st.ws.ready &&
          !decide (st.ws.nativeBalance ≤ parseDecInt cfg.cwMinGasAmount))
          = true
      · rw [if_pos hg]
        refine ih _ _ ?_
        have hle := processQueueTx_pending_le cfg
          { st with lastProcessedClaimTxIdx := c.claim.claimIdx } c
          (outs.headD none)
        simp only at hle
        omega
      · rw [if_neg hg]
        simpa using h
    · rw [if_neg hp]
      simpa using h

/-- C3 counterexample: startup recovery restores every persisted PENDING
session into the pending map without consulting cwMaxPending, so with
cwMaxPending = 1 and two persisted PENDING sessions the bound already
fails at the first tick boundary after recovery. -/
theorem pending_bound_recovery_counterexample :
    ¬((restoreClaimState [sessPendA, sessPendB]).1.pendingTxQueue.length ≤
      cfgMax1.cwMaxPending) := by
  decide

/-- C3 amended: if the pending map respects cwMaxPending when a queue tick
starts, it still respects it when the tick completes; each iteration
dequeues only while the pending map is strictly below cwMaxPending and
adds at most one entry. -/
theorem pending_bound_tick_preserved (cfg : Config) (st : SysState)
    (outs : List (Option String))
    (h : st.pendingTxQueue.length ≤ cfg.cwMaxPending) :
    (processQueueTick cfg st outs).1.pendingTxQueue.length ≤
      cfg.cwMaxPending := by
  obtain ⟨_, _, hpend⟩ := processQueueTick_loop_parts cfg st outs
  rw [hpend]
  exact processLoop_pending_bound cfg st.claimTxQueue st outs h

/-- Witness for the amended C3: a tick over stSeven (seven queued claims,
empty pending map, rich wallet) keeps the pending map within cwMaxPending
= 5. -/
theorem pending_bound_tick_preserved_witness :
    (processQueueTick cfgEx stSeven outsSeven).1.pendingTxQueue.length ≤
      cfgEx.cwMaxPending :=
  pending_bound_tick_preserved cfgEx stSeven outsSeven (by decide)

/-- Lookup distributes over append when the key is absent on the left. -/
theorem assocFind_append_of_none {α : Type} (l1 l2 : List (String × α))
    (k : String) (h : assocFind l1 k = none) :
    assocFind (l1 ++ l2) k = assocFind l2 k := by
  induction l1 with
  | nil => rfl
  | cons hd tl ih =>
    obtain ⟨k2, v⟩ := hd
    simp only [assocFind] at h
    by_cases hk : k2 = k
    · rw [if_pos hk] at h
      exact absurd h (by simp)
    · rw [if_neg hk] at h
      rw [List.cons_append]
      simp only [assocFind, if_neg hk]
      exact ih h

/-- Inserting an absent key appends the binding at the end. -/
theorem assocSet_eq_append {α : Type} (l : List (String × α)) (k : String)
    (v : α) (h : assocFind l k = none) : assocSet l k v = l ++ [(k, v)] := by
  induction l with
  | nil => rfl
  | cons hd tl ih =>
    obtain ⟨k2, v2⟩ := hd
    simp only [assocFind] at h
    by_cases hk : k2 = k
    · rw [if_pos hk] at h
      exact absurd h (by simp)
    · rw [if_neg hk] at h
      simp only [assocSet, if_neg hk, List.cons_append]
      rw [ih h]

/-- Lookup misses a singleton with a different key. -/
theorem assocFind_singleton_ne {α : Type} (k2 k : String) (v : α)
    (h : k2 ≠ k) : assocFind [(k2, v)] k = none := by
  simp [assocFind, h]

/-- Characterization of a recovery step on a QUEUE or PROCESSING session. -/
theorem restoreStep_qp (acc : RAcc) (s : StoredClaimingSession)
    (h : isQP s = true) :
    restoreStep acc s =
      ⟨acc.q ++ [mkClaimInfo s],
        assocSet acc.d s.sessionId (mkClaimInfo s), acc.p, acc.w,
        if s.claim.claimIdx > acc.m then s.claim.claimIdx else acc.m⟩ := by
  cases hst : s.claim.claimStatus <;>
    simp [isQP, hst] at h <;>
    simp [restoreStep, hst, mkClaimInfo]

/-- Characterization of a recovery step on a PENDING session whose stored
txHash is truthy. -/
theorem restoreStep_pend (acc : RAcc) (s : StoredClaimingSession)
    (hst : s.claim.claimStatus = .pending)
    (htr : optTruthy s.claim.txHash = true) :
    restoreStep acc s =
      ⟨acc.q, assocSet acc.d s.sessionId (mkClaimInfo s),
        assocSet acc.p (pendKey s) (mkClaimInfo s),
        acc.w ++ [mkClaimInfo s],
        if s.claim.claimIdx > acc.m then s.claim.claimIdx else acc.m⟩ := by
  cases hh : s.claim.txHash with
  | none => rw [hh] at htr; exact absurd htr (by simp [optTruthy])
  | some v =>
    rw [hh] at htr
    simp only [optTruthy] at htr
    simp [restoreStep, hst, hh, htr, mkClaimInfo, pendKey]

/-- A recovery step drops a session whose substatus is neither QUEUE,
PROCESSING nor PENDING, and skips the maxQueueIdx update. -/
theorem restoreStep_drop (acc : RAcc) (s : StoredClaimingSession)
    (h : isRestored s = false) : restoreStep acc s = acc := by
  cases hst : s.claim.claimStatus <;>
    simp [isRestored, isQP, isPend, hst] at h <;>
    simp [restoreStep, hst]

/-- The source's running-maximum update is Nat.max. -/
theorem if_gt_eq_max (m i : Nat) :
    (if i > m then i else m) = Nat.max m i := by
  split
  next h => exact (Nat.max_eq_right (Nat.le_of_lt h)).symm
  next h => exact (Nat.max_eq_left (Nat.not_lt.mp h)).symm

/-- The recovery forEach, run from any accumulator whose dict and pending
keys avoid the incoming sessions: it appends the QUEUE and PROCESSING
claims to the queue, all restored claims to the dict, the truthy-hash
PENDING claims to the pending map and the watcher list, and folds the
running maximum of restored claim indices. -/
theorem restore_foldl_eq :
    ∀ (ss : List StoredClaimingSession) (acc : RAcc),
      (ss.map (fun s => s.sessionId)).Nodup →
      (∀ s ∈ ss, assocFind acc.d s.sessionId = none) →
      (∀ s ∈ ss, isPend s = true → optTruthy s.claim.txHash = true) →
      ((ss.filter isPend).map pendKey).Nodup →
      (∀ s ∈ ss, isPend s = true →
        assocFind acc.p (pendKey s) = none) →
      ss.foldl restoreStep acc =
        ⟨acc.q ++ (ss.filter isQP).map mkClaimInfo,
          acc.d ++ (ss.filter isRestored).map
            (fun s => (s.sessionId, mkClaimInfo s)),
          acc.p ++ (ss.filter isPend).map
            (fun s => (pendKey s, mkClaimInfo s)),
          acc.w ++ (ss.filter isPend).map mkClaimInfo,
          (ss.filter isRestored).foldl
            (fun m s =>
              if s.claim.claimIdx > m then s.claim.claimIdx else m)
            acc.m⟩ := by
  intro ss
  induction ss with
  | nil =>
    intro acc _ _ _ _ _
    simp
  | cons s rest ih =>
    intro acc h1 hd htr h3 hp
    simp only [List.map_cons, List.nodup_cons] at h1
    obtain ⟨hsid, h1'⟩ := h1
    have hdacc : assocFind acc.d s.sessionId = none :=
      hd s (List.mem_cons_self s rest)
    have hdTail : ∀ s' ∈ rest,
        assocFind (acc.d ++ [(s.sessionId, mkClaimInfo s)])
          s'.sessionId = none := by
      intro s' hs'
      rw [assocFind_append_of_none _ _ _
        (hd s' (List.mem_cons_of_mem _ hs'))]
      refine assocFind_singleton_ne _ _ _ (fun he => hsid ?_)
      rw [he]
      exact List.mem_map_of_mem _ hs'
    have htrTail : ∀ s' ∈ rest, isPend s' = true →
        optTruthy s'.claim.txHash = true :=
      fun s' hs' hps' => htr s' (List.mem_cons_of_mem _ hs') hps'
    have hpTail : ∀ s' ∈ rest, isPend s' = true →
        assocFind acc.p (pendKey s') = none :=
      fun s' hs' hps' => hp s' (List.mem_cons_of_mem _ hs') hps'
    by_cases hqp : isQP s = true
    · have hpendF : isPend s = false := by
        cases hst : s.claim.claimStatus <;>
          simp [isQP, hst] at hqp <;> simp [isPend, hst]
      have hrst : isRestored s = true := by
        simp [isRestored, hqp]
      have h3' : ((rest.filter isPend).map pendKey).Nodup := by
        simpa [List.filter_cons, hpendF] using h3
      rw [List.foldl_cons, restoreStep_qp acc s hqp,
        assocSet_eq_append acc.d s.sessionId (mkClaimInfo s) hdacc,
        ih ⟨acc.q ++ [mkClaimInfo s],
          acc.d ++ [(s.sessionId, mkClaimInfo s)], acc.p, acc.w,
          if s.claim.claimIdx > acc.m then s.claim.claimIdx else acc.m⟩
          h1' hdTail htrTail h3' hpTail]
      simp [List.filter_cons, hqp, hpendF, hrst, List.append_assoc]
    · by_cases hpd : isPend s = true
      · have hst : s.claim.claimStatus = .pending := by
          simpa [isPend] using hpd
        have hpk : pendKey s ∉ (rest.filter isPend).map pendKey := by
          have := h3
          simp only [List.filter_cons, hpd, if_true, List.map_cons,
            List.nodup_cons] at this
          exact this.1
        have hrst : isRestored s = true := by
          simp [isRestored, hpd]
        have h3' : ((rest.filter isPend).map pendKey).Nodup := by
          have := h3
          simp only [List.filter_cons, hpd, if_true, List.map_cons,
            List.nodup_cons] at this
          exact this.2
        have hpacc : assocFind acc.p (pendKey s) = none :=
          hp s (List.mem_cons_self s rest) hpd
        have hpTail2 : ∀ s' ∈ rest, isPend s' = true →
            assocFind (acc.p ++ [(pendKey s, mkClaimInfo s)])
              (pendKey s') = none := by
          intro s' hs' hps'
          rw [assocFind_append_of_none _ _ _ (hpTail s' hs' hps')]
          refine assocFind_singleton_ne _ _ _ (fun he => hpk ?_)
          rw [he]
          exact List.mem_map_of_mem _ (List.mem_filter.mpr ⟨hs', hps'⟩)
        rw [List.foldl_cons,
          restoreStep_pend acc s hst
            (htr s (List.mem_cons_self s rest) hpd),
          assocSet_eq_append acc.d s.sessionId (mkClaimInfo s) hdacc,
          assocSet_eq_append acc.p (pendKey s) (mkClaimInfo s) hpacc,
          ih ⟨acc.q, acc.d ++ [(s.sessionId, mkClaimInfo s)],
            acc.p ++ [(pendKey s, mkClaimInfo s)],
            acc.w ++ [mkClaimInfo s],
            if s.claim.claimIdx > acc.m then s.claim.claimIdx else acc.m⟩
            h1' hdTail htrTail h3' hpTail2]
        have hqpF : isQP s = false := by
          simpa using hqp
        simp [List.filter_cons, hqpF, hpd, hrst, List.append_assoc]
      · have hqpF : isQP s = false := by
          simpa using hqp
        have hpdF : isPend s = false := by
          simpa using hpd
        have hrstF : isRestored s = false := by
          simp [isRestored, hqpF, hpdF]
        have h3' : ((rest.filter isPend).map pendKey).Nodup := by
          simpa [List.filter_cons, hpdF] using h3
        rw [List.foldl_cons, restoreStep_drop acc s hrstF,
          ih acc h1' (fun s' hs' => hd s' (List.mem_cons_of_mem _ hs'))
            htrTail h3' hpTail]
        simp [List.filter_cons, hqpF, hpdF, hrstF]

/-- The running-maximum fold over sessions equals the Nat.max fold over
their claim indices. -/
theorem foldl_idx_eq_max :
    ∀ (l : List StoredClaimingSession) (m : Nat),
      l.foldl
        (fun m s => if s.claim.claimIdx > m then s.claim.claimIdx else m)
        m =
      (l.map (fun s => s.claim.claimIdx)).foldl Nat.max m := by
  intro l
  induction l with
  | nil => intro m; rfl
  | cons s rest ih =>
    intro m
    rw [List.foldl_cons, List.map_cons, List.foldl_cons, if_gt_eq_max,
      ih]

/-- C5: startup recovery reinstates every persisted CLAIMING session with
substatus QUEUE or PROCESSING into the queue and bySession, every one with
substatus PENDING (with its truthy txHash) into the pending map keyed by
that hash and into bySession with a confirmation watcher started, and
drops every other substatus; afterwards the queue is sorted ascending by
claimIdx and lastClaimTxIdx is the maximum restored claimIdx plus one
(so 1 when nothing was restored).  Hypotheses: session ids are unique,
every PENDING session stores a truthy txHash, and those hashes are
distinct. -/
theorem restore_reinstates_sessions (sessions : List StoredClaimingSession)
    (h1 : (sessions.map (fun s => s.sessionId)).Nodup)
    (h2 : ∀ s ∈ sessions, isPend s = true →
      optTruthy s.claim.txHash = true)
    (h3 : ((sessions.filter isPend).map pendKey).Nodup) :
    List.Sorted claimIdxLe (restoreClaimState sessions).1.claimTxQueue ∧
    ((restoreClaimState sessions).1.claimTxQueue).Perm
      ((sessions.filter isQP).map mkClaimInfo) ∧
    (restoreClaimState sessions).1.pendingTxQueue =
      (sessions.filter isPend).map
        (fun s => (pendKey s, mkClaimInfo s)) ∧
    (restoreClaimState sessions).1.claimTxDict =
      (sessions.filter isRestored).map
        (fun s => (s.sessionId, mkClaimInfo s)) ∧
    (restoreClaimState sessions).2 =
      (sessions.filter isPend).map mkClaimInfo ∧
    (restoreClaimState sessions).1.lastClaimTxIdx =
      ((sessions.filter isRestored).map
        (fun s => s.claim.claimIdx)).foldl Nat.max 0 + 1 := by
  have hfold := restore_foldl_eq sessions ⟨[], [], [], [], 0⟩ h1
    (fun _ _ => rfl) h2 h3 (fun _ _ _ => rfl)
  simp only [restoreClaimState, hfold, List.nil_append]
  refine ⟨List.sorted_insertionSort claimIdxLe _,
    List.perm_insertionSort claimIdxLe _, ?_, ?_, ?_, ?_⟩ <;>
    simp [foldl_idx_eq_max]

/-- Witness for C5 (spec scenario 6): recovering S4 (PENDING, idx 8, hash
0xAB) and S3 (PROCESSING, idx 7) yields queue [S3], pending keyed 0xAB,
both in bySession, a watcher on S4, and lastClaimTxIdx 9. -/
theorem restore_reinstates_sessions_witness :
    List.Sorted claimIdxLe
      (restoreClaimState [sessPend8, sessProc7]).1.claimTxQueue ∧
    ((restoreClaimState [sessPend8, sessProc7]).1.claimTxQueue).Perm
      (([sessPend8, sessProc7].filter isQP).map mkClaimInfo) ∧
    (restoreClaimState [sessPend8, sessProc7]).1.pendingTxQueue =
      ([sessPend8, sessProc7].filter isPend).map
        (fun s => (pendKey s, mkClaimInfo s)) ∧
    (restoreClaimState [sessPend8, sessProc7]).1.claimTxDict =
      ([sessPend8, sessProc7].filter isRestored).map
        (fun s => (s.sessionId, mkClaimInfo s)) ∧
    (restoreClaimState [sessPend8, sessProc7]).2 =
      ([sessPend8, sessProc7].filter isPend).map mkClaimInfo ∧
    (restoreClaimState [sessPend8, sessProc7]).1.lastClaimTxIdx =
      (([sessPend8, sessProc7].filter isRestored).map
        (fun s => s.claim.claimIdx)).foldl Nat.max 0 + 1 :=
  restore_reinstates_sessions [sessPend8, sessProc7] (by decide)
    (by decide) (by decide)

end PoWFaucet
